import Mathlib

/-!
Verification of the documentation-suggestion pipeline of the Shipa-docs
bot.  The definitions below are shallow embeddings of the TypeScript
functions in `src/ai/suggestions.ts`, `src/services/github.ts` and the
batched revision of the suggestion generator: JavaScript strings become
`String`, arrays become `List`, the `Set` of deleted line numbers becomes
a duplicate-free `List Nat`, and the two external collaborators (the REST
client and the text-generation backend) are passed in as explicit values
(the model response as a `String`, call outcomes as `Bool` oracles).
-/

/-! ## JavaScript string primitives -/

/-- JS `String.prototype.startsWith`: `p.data` is a prefix of `s.data`. -/
def startsWithStr (s p : String) : Bool :=
  p.data.isPrefixOf s.data

/-- ASCII whitespace recognised by JS `trim` on the strings this bot sees. -/
def isWs (c : Char) : Bool :=
  c = ' ' || c = '\t' || c = '\n' || c = '\r'

/-- JS `String.prototype.trim`: strip whitespace from both ends. -/
def jsTrim (s : String) : String :=
  String.mk (((s.data.dropWhile isWs).reverse.dropWhile isWs).reverse)

/-- JS `String.prototype.substring(1)`: drop the first character. -/
def strDrop1 (s : String) : String :=
  String.mk (s.data.drop 1)

/-- Occurrence test on character lists, leftmost search. -/
def containsSubAux (pat : List Char) : List Char → Bool
  | [] => pat.isEmpty
  | c :: cs => pat.isPrefixOf (c :: cs) || containsSubAux pat cs

/-- JS `String.prototype.includes`: substring occurrence. -/
def containsSub (s pat : String) : Bool :=
  containsSubAux pat.data s.data

/-- Case-insensitive substring occurrence, for the `/.../i` regex tests. -/
def containsSubCI (s pat : String) : Bool :=
  containsSubAux (pat.data.map Char.toLower) (s.data.map Char.toLower)

/-- JS `String.prototype.split("\n")` on the character list, keeping empty
pieces, exactly as `"a\n\nb".split("\n")` yields `["a", "", "b"]`. -/
def splitNlAux : List Char → List Char → List String
  | [], acc => [String.mk acc.reverse]
  | c :: cs, acc =>
    if c = '\n' then String.mk acc.reverse :: splitNlAux cs []
    else splitNlAux cs (c :: acc)

/-- JS `s.split("\n")`. -/
def splitNl (s : String) : List String :=
  splitNlAux s.data []

/-- Fuelled splitter on a multi-character separator; the fuel always
dominates the list length at the call site, so the fuel-0 case never
fires for the nonempty separators used here. -/
def splitOnStrFuel (sep : List Char) : Nat → List Char → List Char → List String
  | 0, cs, acc => [String.mk (acc.reverse ++ cs)]
  | _ + 1, [], acc => [String.mk acc.reverse]
  | fuel + 1, c :: cs, acc =>
    if sep.isPrefixOf (c :: cs) then
      String.mk acc.reverse :: splitOnStrFuel sep fuel ((c :: cs).drop sep.length) []
    else
      splitOnStrFuel sep fuel cs (c :: acc)

/-- JS `s.split(sep)` for a nonempty literal separator. -/
def splitOnStr (sep s : String) : List String :=
  splitOnStrFuel sep.data (s.data.length + 1) s.data []

/-- Remove the first occurrence of `pat`, as JS `s.replace(pat, "")`. -/
def replaceFirstAux (pat : List Char) : List Char → List Char
  | [] => []
  | c :: cs =>
    if pat.isPrefixOf (c :: cs) then (c :: cs).drop pat.length
    else c :: replaceFirstAux pat cs

/-- JS `s.replace(pat, "")` with a literal pattern. -/
def replaceFirst (pat s : String) : String :=
  String.mk (replaceFirstAux pat.data s.data)

/-! ## The hunk-header regex `@@ -\d+,\d+ \+(\d+),\d+ @@`

JS `line.match(...)` performs an unanchored search; each `\d+` is
followed by a non-digit literal, so greedy maximal-run matching is
exact. -/

/-- Match a literal character sequence at the head of the input. -/
def matchLit : List Char → List Char → Option (List Char)
  | [], cs => some cs
  | _ :: _, [] => none
  | p :: ps, c :: cs => if c = p then matchLit ps cs else none

/-- Maximal run of decimal digits at the head of the input. -/
def takeDigits : List Char → List Char × List Char
  | [] => ([], [])
  | c :: cs =>
    if c.isDigit then
      let r := takeDigits cs
      (c :: r.1, r.2)
    else ([], c :: cs)

/-- Decimal value of a digit run, as `Number.parseInt(. , 10)`. -/
def digitsToNat (ds : List Char) : Nat :=
  ds.foldl (fun n c => n * 10 + (c.toNat - '0'.toNat)) 0

/-- Try the hunk-header pattern at this exact offset; the returned number
is the first capture group, the new-file start line. -/
def hunkAt (cs : List Char) : Option Nat :=
  match matchLit "@@ -".data cs with
  | none => none
  | some r1 =>
    let p1 := takeDigits r1
    if p1.1.isEmpty then none else
    match matchLit ",".data p1.2 with
    | none => none
    | some r2 =>
      let p2 := takeDigits r2
      if p2.1.isEmpty then none else
      match matchLit " +".data p2.2 with
      | none => none
      | some r3 =>
        let p3 := takeDigits r3
        if p3.1.isEmpty then none else
        match matchLit ",".data p3.2 with
        | none => none
        | some r4 =>
          let p4 := takeDigits r4
          if p4.1.isEmpty then none else
          match matchLit " @@".data p4.2 with
          | none => none
          | some _ => some (digitsToNat p3.1)

/-- Unanchored leftmost search for the hunk-header pattern, as JS
`line.match(/@@ -\d+,\d+ \+(\d+),\d+ @@/)`. -/
def searchHunk : List Char → Option Nat
  | [] => none
  | c :: cs =>
    match hunkAt (c :: cs) with
    | some n => some n
    | none => searchHunk cs

/-! ## `calculatePositionInFile` (identical in both revisions) -/

/-- One iteration of the position loop over a defined patch line: a line
starting with `"@@ "` resets the state when the regex matches and is
otherwise ignored; a `"+"` line and any line not starting with `"-"`
advance the counter; a `"-"` line does not. -/
def stepLine (s : Nat × Nat) (l : String) : Nat × Nat :=
  if startsWithStr l "@@ " = true then
    match searchHunk l.data with
    | some n => (n, 0)
    | none => s
  else if startsWithStr l "+" = true then (s.1, s.2 + 1)
  else if startsWithStr l "-" = true then s
  else (s.1, s.2 + 1)

/-- The loop body including the out-of-bounds case: for an index past the
array, `!undefined?.startsWith("-")` is `true`, so the counter advances. -/
def stepOpt (s : Nat × Nat) : Option String → Nat × Nat
  | some l => stepLine s l
  | none => (s.1, s.2 + 1)

/-- State `(currentHunkStart, linesAfterHunkStart)` after the first `n`
iterations of the loop in `calculatePositionInFile`. -/
def posLoop (lines : List String) : Nat → Nat × Nat
  | 0 => (0, 0)
  | n + 1 => stepOpt (posLoop lines n) lines[n]?

/-- `calculatePositionInFile` from `src/ai/suggestions.ts` (the same code
appears in the batched revision): scan the lines before `lineIndex`,
return `currentHunkStart + linesAfterHunkStart` clamped to at least 1. -/
def calculatePositionInFile (lines : List String) (lineIndex : Nat) : Nat :=
  Nat.max ((posLoop lines lineIndex).1 + (posLoop lines lineIndex).2) 1

/-- Number of lines in a segment that the loop counts: those not starting
with `"-"` (headers are excluded separately by the callers below). -/
def countNR (l : List String) : Nat :=
  (l.filter (fun L => !startsWithStr L "-")).length

/-! ## Candidate collection in `createDocumentationSuggestions`
(`src/ai/suggestions.ts`) -/

/-- Loop state of the collection pass: the candidate lines gathered so
far (patch-line index, text without the `+`) and the JS `Set` of computed
positions of deleted lines, kept as a duplicate-free list. -/
structure CollectState where
  docLines : List (Nat × String)
  deleted : List Nat
deriving DecidableEq, Repr

/-- JS `Set.prototype.add`. -/
def jsSetAdd (s : List Nat) (x : Nat) : List Nat :=
  if x ∈ s then s else s ++ [x]

/-- JS `Set.prototype.delete`. -/
def jsSetDelete (s : List Nat) (x : Nat) : List Nat :=
  s.erase x

/-- One iteration of the collection loop of
`createDocumentationSuggestions`: a `-` line (not `---`) records its
computed position as deleted; a `+` line (not `+++`) with nonempty
trimmed text is collected whether or not its position was marked deleted,
and in the latter case the position is removed from the deleted set. -/
def collectStep (lines : List String) (st : CollectState) (i : Nat) : CollectState :=
  match lines[i]? with
  | none => st
  | some line =>
    let st1 : CollectState :=
      if startsWithStr line "-" = true ∧ startsWithStr line "---" = false then
        ⟨st.docLines, jsSetAdd st.deleted (calculatePositionInFile lines i)⟩
      else st
    if startsWithStr line "+" = true ∧ startsWithStr line "+++" = false then
      if jsTrim (strDrop1 line) ≠ "" ∧ calculatePositionInFile lines i ∉ st1.deleted then
        ⟨st1.docLines ++ [(i, strDrop1 line)], st1.deleted⟩
      else if jsTrim (strDrop1 line) ≠ "" ∧ calculatePositionInFile lines i ∈ st1.deleted then
        ⟨st1.docLines ++ [(i, strDrop1 line)], jsSetDelete st1.deleted (calculatePositionInFile lines i)⟩
      else st1
    else st1

/-- State after the first `n` iterations of the collection loop; the full
pass is `collectLoop lines lines.length`. -/
def collectLoop (lines : List String) : Nat → CollectState
  | 0 => ⟨[], []⟩
  | n + 1 => collectStep lines (collectLoop lines n) n

/-! ## Comment bodies (`formatSuggestionComment`, `formatLineSuggestion`) -/

/-- `formatSuggestionComment` from `src/ai/suggestions.ts`: split on the
`"\nsuggestion:"` marker; with exactly two parts, build the reasoned
suggestion block; otherwise return the content unchanged. -/
def formatSuggestionComment (content : String) : String :=
  match splitOnStr "\nsuggestion:" content with
  | [p0, p1] =>
    "**Reason for improvement:** " ++ jsTrim (replaceFirst "reason:" p0) ++
      "\n```suggestion\n" ++ jsTrim p1 ++ "\n```"
  | _ => content

/-- `formatLineSuggestion`: plain suggestion block, original unused. -/
def formatLineSuggestion (_original improved : String) : String :=
  "```suggestion\n" ++ improved ++ "\n```"

/-! ## `processIndividualLine` (`src/ai/suggestions.ts`)

The model call is represented by its response `aiText` (the `catch`
handler turns a backend failure into `""`); the produced review comment,
if any, is returned as `(body, position)` instead of being posted. -/

/-- Result of one per-line pass: whether the function returned `true`,
the review comment it would post, and whether the model was invoked. -/
structure LineResult where
  success : Bool
  comment : Option (String × Nat)
  invokedModel : Bool
deriving DecidableEq, Repr

/-- `processIndividualLine`: skip empty or bot-metadata lines before the
model call, then either post the reason/suggestion body (when both
markers occur in the response), drop trimmed-identical plain responses,
or post the plain suggestion block. -/
def processIndividualLine (lines : List String) (docLine : Nat)
    (codeLine aiText : String) : LineResult :=
  if jsTrim codeLine = "" then ⟨false, none, false⟩
  else if containsSub codeLine "Co-authored-by:" = true ∨
      containsSub codeLine "suggestion" = true ∨
      containsSub codeLine "Suggested" = true ∨
      containsSub codeLine "bot@" = true then ⟨false, none, false⟩
  else if containsSubCI codeLine "Apply suggestion from" = true ∨
      containsSubCI codeLine "Co-authored-by:" = true then ⟨false, none, false⟩
  else if aiText = "" then ⟨false, none, true⟩
  else if containsSub aiText "reason:" = true ∧ containsSub aiText "suggestion:" = true then
    ⟨true, some (formatSuggestionComment aiText, calculatePositionInFile lines docLine), true⟩
  else if jsTrim aiText = jsTrim codeLine then ⟨false, none, true⟩
  else
    ⟨true, some (formatLineSuggestion codeLine aiText, calculatePositionInFile lines docLine), true⟩

/-! ## The batched revision of `createDocumentationSuggestions` -/

/-- Return value and review comments of one batched run. -/
structure BatchResult where
  count : Nat
  comments : List (String × Nat)
deriving DecidableEq, Repr

namespace Batched

/-- The batched revision collects every added line (prefix `+`, not
`+++`) with no further filtering. -/
def collectDocLines (lines : List String) : List (Nat × String) :=
  (List.range lines.length).filterMap fun i =>
    match lines[i]? with
    | some l =>
      if startsWithStr l "+" = true ∧ startsWithStr l "+++" = false then
        some (i, strDrop1 l)
      else none
    | none => none

/-- `formatSuggestionComment` of the batched revision. -/
def formatSuggestionComment (content : String) : String :=
  "Documentation improvement suggestion:\n```suggestion\n" ++ content ++ "\n```"

/-- Batched `createDocumentationSuggestions`: one model call over the
joined candidate lines; the response is accepted only when its
newline-split line count equals the candidate count, in which case a
single comprehensive comment is created at the first candidate's
position; an empty response or a count mismatch yields nothing. -/
def createDocumentationSuggestions (patch aiText : String) : BatchResult :=
  if (collectDocLines (splitNl patch)).isEmpty then ⟨0, []⟩
  else if aiText = "" then ⟨0, []⟩
  else if (splitNl aiText).length = (collectDocLines (splitNl patch)).length then
    match collectDocLines (splitNl patch) with
    | [] => ⟨0, []⟩
    | d :: _ =>
      ⟨1, [(Batched.formatSuggestionComment aiText,
        calculatePositionInFile (splitNl patch) d.1)]⟩
  else ⟨0, []⟩

end Batched

/-! ## `createReviewComment` (`src/services/github.ts`)

The two REST calls are oracles: `positionedOk` is whether the
line-and-side review comment succeeds, `fallbackOk` whether the whole-PR
review succeeds.  The function counts the attempts it makes, records the
body sent on the fallback path, and returns its boolean result. -/

/-- Observable outcome of one `createReviewComment` call. -/
structure ReviewOutcome where
  positionedAttempts : Nat
  fallbackAttempts : Nat
  fallbackBody : Option String
  result : Bool
deriving DecidableEq, Repr

/-- `createReviewComment`: try the positioned comment; on failure submit
one whole-PR review whose body is prefixed with the file path; the outer
catch also returns `true`, so the function never reports failure. -/
def createReviewComment (filePath body : String) (positionedOk fallbackOk : Bool) :
    ReviewOutcome :=
  if positionedOk then ⟨1, 0, none, true⟩
  else if fallbackOk then
    ⟨1, 1, some ("Documentation improvement for " ++ filePath ++ ":\n\n" ++ body), true⟩
  else
    ⟨1, 1, some ("Documentation improvement for " ++ filePath ++ ":\n\n" ++ body), true⟩

/-! ## Lemmas about the position loop -/

lemma singleton_prefix_char {a b : Char} {l : List Char} (hab : ¬ a = b)
    (h : List.isPrefixOf [a] l = true) : List.isPrefixOf [b] l = false := by
  cases l with
  | nil => simp [List.isPrefixOf] at h
  | cons c cs =>
    simp only [List.isPrefixOf, Bool.and_true, beq_iff_eq] at h ⊢
    simp [h] at hab ⊢
    exact fun hbc => hab (hbc.symm)

lemma plus_not_minus (L : String) (h : startsWithStr L "+" = true) :
    startsWithStr L "-" = false := by
  have h1 : "+".data = ['+'] := rfl
  have h2 : "-".data = ['-'] := rfl
  unfold startsWithStr at h ⊢
  rw [h1] at h
  rw [h2]
  exact singleton_prefix_char (by decide) h

/-- The loop state at index `n` is the left fold of `stepLine` over the
first `n` lines, as long as `n` is in bounds. -/
lemma posLoop_take (lines : List String) :
    ∀ n, n ≤ lines.length → posLoop lines n = (lines.take n).foldl stepLine (0, 0) := by
  intro n
  induction n with
  | zero => intro _; rfl
  | succ m ih =>
    intro h
    have hm : m < lines.length := Nat.lt_of_succ_le h
    have hl : lines[m]? = some lines[m] := List.getElem?_eq_getElem hm
    have step : posLoop lines (m + 1) = stepOpt (posLoop lines m) lines[m]? := rfl
    rw [step, hl, ih (Nat.le_of_lt hm), List.take_succ, hl]
    simp only [Option.toList_some, List.foldl_append, List.foldl_cons, List.foldl_nil]
    rfl

/-- Specialisation: the state right after a decomposed prefix. -/
lemma posLoop_append_length (A B : List String) :
    posLoop (A ++ B) A.length = A.foldl stepLine (0, 0) := by
  have h := posLoop_take (A ++ B) A.length (by simp)
  rwa [List.take_left] at h

lemma stepLine_header (s : Nat × Nat) (hdr : String) (c : Nat)
    (h1 : startsWithStr hdr "@@ " = true) (h2 : searchHunk hdr.data = some c) :
    stepLine s hdr = (c, 0) := by
  simp [stepLine, h1, h2]

lemma stepLine_badHeader (s : Nat × Nat) (bad : String)
    (h1 : startsWithStr bad "@@ " = true) (h2 : searchHunk bad.data = none) :
    stepLine s bad = s := by
  simp [stepLine, h1, h2]

/-- Over a segment containing no `"@@ "` line, the hunk start is kept and
the counter advances once per line not starting with `"-"`. -/
lemma foldl_headerFree :
    ∀ (mid : List String) (c k : Nat),
      (∀ L ∈ mid, startsWithStr L "@@ " = false) →
      mid.foldl stepLine (c, k) = (c, k + countNR mid) := by
  intro mid
  induction mid with
  | nil => intro c k _; simp [countNR]
  | cons L mid ih =>
    intro c k h
    have hL : startsWithStr L "@@ " = false := h L (by simp)
    have hmid : ∀ M ∈ mid, startsWithStr M "@@ " = false := fun M hM => h M (by simp [hM])
    rw [List.foldl_cons]
    by_cases hp : startsWithStr L "+" = true
    · have hm : startsWithStr L "-" = false := plus_not_minus L hp
      have hstep : stepLine (c, k) L = (c, k + 1) := by simp [stepLine, hL, hp]
      rw [hstep, ih c (k + 1) hmid]
      simp [countNR, List.filter_cons, hm]
      omega
    · by_cases hm : startsWithStr L "-" = true
      · have hstep : stepLine (c, k) L = (c, k) := by simp [stepLine, hL, hp, hm]
        rw [hstep, ih c k hmid]
        simp [countNR, List.filter_cons, hm]
      · have hstep : stepLine (c, k) L = (c, k + 1) := by simp [stepLine, hL, hp, hm]
        rw [hstep, ih c (k + 1) hmid]
        simp [countNR, List.filter_cons, hm]
        omega

/-! ## Lemmas about the collection loop -/

lemma collectStep_docLines_mem (lines : List String) (st : CollectState) (j : Nat)
    (x : Nat × String) (hx : x ∈ st.docLines) :
    x ∈ (collectStep lines st j).docLines := by
  unfold collectStep
  cases h : lines[j]? with
  | none => simpa using hx
  | some L =>
    simp only []
    repeat' split
    all_goals simp_all [List.mem_append]

lemma collectLoop_docLines_mono (lines : List String) (m : Nat) (x : Nat × String)
    (hx : x ∈ (collectLoop lines m).docLines) :
    ∀ n, m ≤ n → x ∈ (collectLoop lines n).docLines := by
  intro n
  induction n with
  | zero => intro h; rw [Nat.le_zero.mp h] at hx; exact hx
  | succ k ih =>
    intro h
    rcases Nat.lt_or_ge m (k + 1) with hlt | hge
    · exact collectStep_docLines_mem lines _ k x (ih (Nat.lt_succ_iff.mp hlt))
    · have hmk : m = k + 1 := Nat.le_antisymm h hge
      rw [hmk] at hx
      exact hx

lemma collectStep_readd (lines : List String) (st : CollectState) (i : Nat) (L : String)
    (hL : lines[i]? = some L)
    (hp : startsWithStr L "+" = true)
    (hpp : startsWithStr L "+++" = false)
    (hne : ¬ jsTrim (strDrop1 L) = "")
    (hdel : calculatePositionInFile lines i ∈ st.deleted) :
    (collectStep lines st i).docLines = st.docLines ++ [(i, strDrop1 L)] := by
  have hm : startsWithStr L "-" = false := plus_not_minus L hp
  have hminus : ¬ (startsWithStr L "-" = true ∧ startsWithStr L "---" = false) := by
    simp [hm]
  simp only [collectStep, hL]
  rw [if_pos ⟨hp, hpp⟩, if_neg hminus]
  rw [if_neg (show ¬ (jsTrim (strDrop1 L) ≠ "" ∧
    calculatePositionInFile lines i ∉ st.deleted) from fun hcon => hcon.2 hdel)]
  rw [if_pos ⟨hne, hdel⟩]

/-! ## Claims C1 and C2: `calculatePositionInFile` -/

/-- Claim C1, amended.  For a patch decomposed as
`pre ++ hdr :: (mid ++ tgt :: rest)` whose hunk header `hdr` matches the
regex with new-file start `c`, and in which no line of `mid` begins with
`"@@ "`, the position computed for `tgt` — the `k`-th line after the
header not starting with `"-"`, where `k = countNR mid + 1` — is
`max (c + k - 1) 1`.  This equals the claimed `c + k - 1` (and `c` for
`k = 1`) whenever `c ≥ 1`; the clamp to 1 fires for `c = 0`, `k = 1`. -/
theorem calcPos_single_hunk (pre mid rest : List String) (hdr tgt : String) (c k : Nat)
    (hhdr : startsWithStr hdr "@@ " = true)
    (hc : searchHunk hdr.data = some c)
    (hmid : ∀ L ∈ mid, startsWithStr L "@@ " = false)
    (_htgt : startsWithStr tgt "-" = false)
    (hk : k = countNR mid + 1) :
    calculatePositionInFile (pre ++ hdr :: (mid ++ tgt :: rest)) (pre.length + 1 + mid.length)
      = Nat.max (c + k - 1) 1 := by
  have hsplit : pre ++ hdr :: (mid ++ tgt :: rest)
      = (pre ++ hdr :: mid) ++ (tgt :: rest) := by
    simp
  have hidx : pre.length + 1 + mid.length = (pre ++ hdr :: mid).length := by
    simp [List.length_append, List.length_cons]
    omega
  rw [hsplit, hidx]
  unfold calculatePositionInFile
  rw [posLoop_append_length, List.foldl_append, List.foldl_cons,
    stepLine_header _ hdr c hhdr hc, foldl_headerFree mid c 0 hmid]
  subst hk
  simp

/-- Claim C1, counterexample to the literal statement.  First input: the
single header is `@@ -1,2 +0,0 @@` (so `c = 0`) and `"x"` is the first
non-removed line after it (`k = 1`): the claim demands position
`c + k - 1 = 0`, but the function clamps to 1.  Second input: `"@@ junk"`
does not start with `"-"`, so `"+x"` is the second non-removed line after
the header (`c = 5`, `k = 2`) and the claim demands 6; the function never
counts a line starting with `"@@ "`, and returns 5. -/
theorem calcPos_single_hunk_counterexample :
    calculatePositionInFile ["@@ -1,2 +0,0 @@", "-a", "-b", "x"] 3 ≠ 0 + 1 - 1 ∧
    calculatePositionInFile ["@@ -1,2 +5,3 @@", "@@ junk", "+x"] 2 ≠ 5 + 2 - 1 := by
  decide

/-- Witness for `calcPos_single_hunk`: header `@@ -1,2 +5,3 @@`, two
counted lines between header and target, so the target is the third
non-removed line and its position is `max (5 + 3 - 1) 1 = 7`. -/
theorem calcPos_single_hunk_witness :
    calculatePositionInFile ["@@ -1,2 +5,3 @@", " a", "+b", "-c", " d"] 4
      = Nat.max (5 + 3 - 1) 1 :=
  calcPos_single_hunk [] [" a", "+b", "-c"] [] "@@ -1,2 +5,3 @@" " d" 5 3
    (by decide) (by decide) (by decide) (by decide) (by decide)

/-- Claim C2, amended.  For a patch with no `"@@ "` line among the lines
before index `i`, the computed position is `max r 1` where `r` is the
number of those lines not starting with `"-"` — not 1 for every index:
the counter still advances from the default hunk start 0, so the result
exceeds 1 as soon as two or more non-removed lines precede the index. -/
theorem calcPos_no_hunk (lines : List String) (i : Nat)
    (hi : i ≤ lines.length)
    (h : ∀ L ∈ lines.take i, startsWithStr L "@@ " = false) :
    calculatePositionInFile lines i = Nat.max (countNR (lines.take i)) 1 := by
  unfold calculatePositionInFile
  rw [posLoop_take lines i hi, foldl_headerFree _ 0 0 h]
  simp

/-- Claim C2, counterexample to the literal statement: the patch
`["+a", "+b", "+c"]` has no hunk header, yet the position computed for
line index 2 is 2, not the claimed 1. -/
theorem calcPos_no_hunk_counterexample :
    calculatePositionInFile ["+a", "+b", "+c"] 2 ≠ 1 := by
  decide

/-- Witness for `calcPos_no_hunk`: with a single preceding non-removed
line the clamped count is 1. -/
theorem calcPos_no_hunk_witness :
    calculatePositionInFile ["+a", "+b"] 1 = Nat.max (countNR (["+a", "+b"].take 1)) 1 :=
  calcPos_no_hunk ["+a", "+b"] 1 (by decide) (by decide)

/-! ## Claim C3: delete-then-readd is still a candidate -/

/-- Claim C3.  If the patch line at index `i` is an added line (`+`, not
`+++`) whose text after the marker is nonempty after trimming, and its
computed position is currently recorded in the deleted-lines set when the
collection loop reaches it (the set is populated only by `-` lines, not
`---`, at their computed positions), then `createDocumentationSuggestions`
still collects `(i, text)` as a candidate: delete-then-readd is not
treated as pure deletion. -/
theorem collect_readd (lines : List String) (i : Nat) (L : String)
    (hL : lines[i]? = some L)
    (hp : startsWithStr L "+" = true)
    (hpp : startsWithStr L "+++" = false)
    (hne : ¬ jsTrim (strDrop1 L) = "")
    (hdel : calculatePositionInFile lines i ∈ (collectLoop lines i).deleted) :
    (i, strDrop1 L) ∈ (collectLoop lines lines.length).docLines := by
  have hi : i < lines.length := by
    by_contra hcon
    rw [List.getElem?_eq_none (Nat.le_of_not_lt hcon)] at hL
    exact Option.noConfusion hL
  have hstep : (collectLoop lines (i + 1)).docLines
      = (collectLoop lines i).docLines ++ [(i, strDrop1 L)] :=
    collectStep_readd lines (collectLoop lines i) i L hL hp hpp hne hdel
  have hmem : (i, strDrop1 L) ∈ (collectLoop lines (i + 1)).docLines := by
    rw [hstep]
    simp
  exact collectLoop_docLines_mono lines (i + 1) _ hmem lines.length hi

/-- Witness for `collect_readd`: in the patch
`["@@ -1,1 +1,1 @@", "-old", "+new"]` the `-old` line records position 1
as deleted, and `+new` computes the same position 1, yet `(2, "new")` is
collected. -/
theorem collect_readd_witness :
    (2, "new") ∈ (collectLoop ["@@ -1,1 +1,1 @@", "-old", "+new"] 3).docLines :=
  collect_readd ["@@ -1,1 +1,1 @@", "-old", "+new"] 2 "+new"
    (by decide) (by decide) (by decide) (by decide) (by decide)

/-! ## Claim C4: batched mode accepts only 1:1 responses -/

lemma splitNlAux_ne_nil : ∀ (cs acc : List Char), splitNlAux cs acc ≠ [] := by
  intro cs
  induction cs with
  | nil => intro acc; simp [splitNlAux]
  | cons c cs ih =>
    intro acc
    by_cases h : c = '\n'
    · simp [splitNlAux, h]
    · simp only [splitNlAux, if_neg h]
      exact ih _

lemma splitNl_length_pos (s : String) : 0 < (splitNl s).length :=
  List.length_pos.mpr (splitNlAux_ne_nil _ _)

/-- Claim C4, amended.  In batched mode, for every patch and every
NON-EMPTY model response: a response whose newline-split line count
differs from the candidate count produces zero suggestions and no review
comment; a matching count produces return value 1 and exactly one
comprehensive suggestion comment.  (The original claim fails only for the
empty response, which the code rejects before the count check.) -/
theorem batched_line_count (patch aiText : String) (hne : ¬ aiText = "") :
    ((splitNl aiText).length ≠ (Batched.collectDocLines (splitNl patch)).length →
      Batched.createDocumentationSuggestions patch aiText = ⟨0, []⟩) ∧
    ((splitNl aiText).length = (Batched.collectDocLines (splitNl patch)).length →
      (Batched.createDocumentationSuggestions patch aiText).count = 1 ∧
      (Batched.createDocumentationSuggestions patch aiText).comments.length = 1) := by
  unfold Batched.createDocumentationSuggestions
  cases hdoc : Batched.collectDocLines (splitNl patch) with
  | nil =>
    constructor
    · intro _
      simp
    · intro hlen
      have := splitNl_length_pos aiText
      rw [hlen] at this
      simp at this
  | cons d ds =>
    constructor
    · intro hlen
      simp [hne, hlen]
      simpa using hlen
    · intro hlen
      simp [hne, hlen]

/-- Claim C4, counterexample to the literal statement: one candidate line
(`"+a"`), empty model response.  JS `"".split("\n")` has length 1, equal
to the candidate count, yet the code produces zero suggestions and no
comment because it rejects the empty response first. -/
theorem batched_line_count_counterexample :
    (splitNl "").length = (Batched.collectDocLines (splitNl "+a")).length ∧
    (Batched.createDocumentationSuggestions "+a" "").count = 0 ∧
    (Batched.createDocumentationSuggestions "+a" "").comments = [] := by
  decide

/-- Witness for `batched_line_count`: a two-line response for two
candidates yields exactly one comment; a one-line response for two
candidates yields none. -/
theorem batched_line_count_witness :
    ((Batched.createDocumentationSuggestions "+a\n+b" "x").count = 0 ∧
      (Batched.createDocumentationSuggestions "+a\n+b" "x").comments = []) ∧
    ((Batched.createDocumentationSuggestions "+a\n+b" "x\ny").count = 1 ∧
      (Batched.createDocumentationSuggestions "+a\n+b" "x\ny").comments.length = 1) :=
  ⟨by
    have h := (batched_line_count "+a\n+b" "x" (by decide)).1 (by decide)
    rw [h]
    exact ⟨rfl, rfl⟩,
   (batched_line_count "+a\n+b" "x\ny" (by decide)).2 (by decide)⟩

/-! ## Claims C5, C6, C9: `processIndividualLine` skip logic -/

/-- Claim C5, amended.  The no-op check applies only to responses that do
NOT carry both the `"reason:"` and `"suggestion:"` markers: for such a
response whose trimmed text equals the trimmed original line,
`processIndividualLine` returns `false` and posts no comment.  (A
marker-formatted response is posted without any no-op comparison — see
the counterexample.) -/
theorem noop_skip (lines : List String) (docLine : Nat) (codeLine aiText : String)
    (hfmt : ¬ (containsSub aiText "reason:" = true ∧ containsSub aiText "suggestion:" = true))
    (heq : jsTrim aiText = jsTrim codeLine) :
    (processIndividualLine lines docLine codeLine aiText).success = false ∧
    (processIndividualLine lines docLine codeLine aiText).comment = none := by
  unfold processIndividualLine
  by_cases h1 : jsTrim codeLine = ""
  · rw [if_pos h1]
    exact ⟨rfl, rfl⟩
  · rw [if_neg h1]
    by_cases h2 : containsSub codeLine "Co-authored-by:" = true ∨
        containsSub codeLine "suggestion" = true ∨
        containsSub codeLine "Suggested" = true ∨ containsSub codeLine "bot@" = true
    · rw [if_pos h2]
      exact ⟨rfl, rfl⟩
    · rw [if_neg h2]
      by_cases h3 : containsSubCI codeLine "Apply suggestion from" = true ∨
          containsSubCI codeLine "Co-authored-by:" = true
      · rw [if_pos h3]
        exact ⟨rfl, rfl⟩
      · rw [if_neg h3]
        by_cases h4 : aiText = ""
        · rw [if_pos h4]
          exact ⟨rfl, rfl⟩
        · rw [if_neg h4, if_neg hfmt, if_pos heq]
          exact ⟨rfl, rfl⟩

/-- Witness for `noop_skip`: the plain response `" // fix bug "` trims to
the original `"// fix bug"`, so nothing is posted. -/
theorem noop_skip_witness :
    (processIndividualLine [] 0 "// fix bug" " // fix bug ").success = false ∧
    (processIndividualLine [] 0 "// fix bug" " // fix bug ").comment = none :=
  noop_skip [] 0 "// fix bug" " // fix bug " (by decide) (by decide)

/-- Claim C5, counterexample to the literal statement: for the original
line `"// fix bug"` and the response
`"reason: No improvements needed.\nsuggestion: // fix bug"`, the parsed
replacement (the part after the `"\nsuggestion:"` marker) trims to
exactly the trimmed original, yet the function returns `true` and posts a
comment: the format branch performs no no-op check. -/
theorem noop_skip_counterexample :
    splitOnStr "\nsuggestion:" "reason: No improvements needed.\nsuggestion: // fix bug"
      = ["reason: No improvements needed.", " // fix bug"] ∧
    jsTrim " // fix bug" = jsTrim "// fix bug" ∧
    (processIndividualLine ["+// fix bug"] 0 "// fix bug"
        "reason: No improvements needed.\nsuggestion: // fix bug").success = true ∧
    (processIndividualLine ["+// fix bug"] 0 "// fix bug"
        "reason: No improvements needed.\nsuggestion: // fix bug").comment ≠ none := by
  decide

/-- Claim C6.  A candidate line containing `"Co-authored-by:"` is
rejected before the model call: `processIndividualLine` returns `false`,
posts no comment, and never invokes the model. -/
theorem coauthored_line_skipped (lines : List String) (docLine : Nat)
    (codeLine aiText : String)
    (h : containsSub codeLine "Co-authored-by:" = true) :
    processIndividualLine lines docLine codeLine aiText = ⟨false, none, false⟩ := by
  unfold processIndividualLine
  split
  · rfl
  · rw [if_pos (Or.inl h)]

/-- Witness for `coauthored_line_skipped`. -/
theorem coauthored_line_skipped_witness :
    processIndividualLine [] 0 "Co-authored-by: DocBuddy" "some response"
      = ⟨false, none, false⟩ :=
  coauthored_line_skipped [] 0 "Co-authored-by: DocBuddy" "some response" (by decide)

/-- Claim C9.  A candidate line containing the lowercase substring
`"suggestion"` anywhere — not only bot metadata — is rejected before the
model call: ordinary prose mentioning the word can never receive a
suggestion. -/
theorem suggestion_mention_skipped (lines : List String) (docLine : Nat)
    (codeLine aiText : String)
    (h : containsSub codeLine "suggestion" = true) :
    processIndividualLine lines docLine codeLine aiText = ⟨false, none, false⟩ := by
  unfold processIndividualLine
  split
  · rfl
  · rw [if_pos (Or.inr (Or.inl h))]

/-- Witness for `suggestion_mention_skipped`: ordinary documentation
prose mentioning the word is skipped. -/
theorem suggestion_mention_skipped_witness :
    processIndividualLine [] 0 "See the suggestion box below for details" "resp"
      = ⟨false, none, false⟩ :=
  suggestion_mention_skipped [] 0 "See the suggestion box below for details" "resp"
    (by decide)

/-! ## Claim C7: response parsing and comment bodies -/

/-- Claim C7, amended.  For a candidate line passing all skip filters:
(1) when the response carries both markers AND splitting on the
newline-prefixed marker `"\nsuggestion:"` yields exactly two parts, the
comment body is the reasoned block — the part before the marker with its
first `"reason:"` stripped and trimmed, plus the trimmed part after the
marker in a suggestion block; (2) when a marker is missing, the entire
response (if nonempty and not a trimmed no-op) becomes the replacement
with no rationale.  When both markers occur but the split does not give
exactly two parts, the raw response is used as the body unchanged — see
the counterexample to the literal claim. -/
theorem response_parsing (lines : List String) (docLine : Nat) (codeLine aiText : String)
    (h1 : ¬ jsTrim codeLine = "")
    (h2 : containsSub codeLine "Co-authored-by:" = false)
    (h3 : containsSub codeLine "suggestion" = false)
    (h4 : containsSub codeLine "Suggested" = false)
    (h5 : containsSub codeLine "bot@" = false)
    (h6 : containsSubCI codeLine "Apply suggestion from" = false)
    (h7 : containsSubCI codeLine "Co-authored-by:" = false) :
    (∀ p0 p1 : String,
      containsSub aiText "reason:" = true →
      containsSub aiText "suggestion:" = true →
      splitOnStr "\nsuggestion:" aiText = [p0, p1] →
      (processIndividualLine lines docLine codeLine aiText).comment =
        some ("**Reason for improvement:** " ++ jsTrim (replaceFirst "reason:" p0) ++
            "\n```suggestion\n" ++ jsTrim p1 ++ "\n```",
          calculatePositionInFile lines docLine)) ∧
    ((containsSub aiText "reason:" = true ∧ containsSub aiText "suggestion:" = true → False) →
      ¬ aiText = "" →
      ¬ jsTrim aiText = jsTrim codeLine →
      (processIndividualLine lines docLine codeLine aiText).comment =
        some ("```suggestion\n" ++ aiText ++ "\n```", calculatePositionInFile lines docLine)) := by
  have hno2 : ¬ (containsSub codeLine "Co-authored-by:" = true ∨
      containsSub codeLine "suggestion" = true ∨
      containsSub codeLine "Suggested" = true ∨ containsSub codeLine "bot@" = true) := by
    simp [h2, h3, h4, h5]
  have hno3 : ¬ (containsSubCI codeLine "Apply suggestion from" = true ∨
      containsSubCI codeLine "Co-authored-by:" = true) := by
    simp [h6, h7]
  constructor
  · intro p0 p1 hr hs hsplit
    have hne : ¬ aiText = "" := by
      intro h0
      rw [h0] at hr
      exact absurd hr (by decide)
    unfold processIndividualLine
    rw [if_neg h1, if_neg hno2, if_neg hno3, if_neg hne, if_pos ⟨hr, hs⟩]
    simp only [formatSuggestionComment, hsplit]
  · intro hfmt hne hneq
    unfold processIndividualLine
    rw [if_neg h1, if_neg hno2, if_neg hno3, if_neg hne, if_neg hfmt, if_neg hneq]
    simp only [formatLineSuggestion]

/-- Claim C7, counterexample to the literal statement: the response
`"reason: a\nsuggestion: b\nsuggestion: c"` contains both markers, so the
claim demands a body formed by splitting, with the `"reason:"` label
stripped; but the split yields three parts, and the code uses the raw
response as the body — the posted comment still begins with the
unstripped `"reason:"` label. -/
theorem response_parsing_counterexample :
    (processIndividualLine ["+x"] 0 "x" "reason: a\nsuggestion: b\nsuggestion: c").comment
      = some ("reason: a\nsuggestion: b\nsuggestion: c", 1) ∧
    startsWithStr "reason: a\nsuggestion: b\nsuggestion: c" "reason:" = true := by
  decide

/-- Witness for `response_parsing`: both halves at concrete inputs — a
well-formed reasoned response produces the formatted body, and a plain
response produces the bare suggestion block. -/
theorem response_parsing_witness :
    (processIndividualLine [] 0 "x" "reason: a\nsuggestion: b").comment =
      some ("**Reason for improvement:** " ++
          jsTrim (replaceFirst "reason:" "reason: a") ++
          "\n```suggestion\n" ++ jsTrim " b" ++ "\n```",
        calculatePositionInFile [] 0) ∧
    (processIndividualLine [] 0 "x" "improved").comment =
      some ("```suggestion\n" ++ "improved" ++ "\n```", calculatePositionInFile [] 0) :=
  ⟨(response_parsing [] 0 "x" "reason: a\nsuggestion: b" (by decide) (by decide)
      (by decide) (by decide) (by decide) (by decide) (by decide)).1
    "reason: a" " b" (by decide) (by decide) (by decide),
   (response_parsing [] 0 "x" "improved" (by decide) (by decide) (by decide)
      (by decide) (by decide) (by decide) (by decide)).2
    (by decide) (by decide) (by decide)⟩

/-! ## Claim C8: `createReviewComment` fallback -/

/-- Claim C8.  Whenever the positioned review-comment call fails, exactly
one whole-PR fallback review is attempted, its body is the original body
prefixed with the file path, and the function reports success — in
particular it returns `true` when the fallback succeeds even though the
primary attempt failed (the outer catch even returns `true` when the
fallback fails too). -/
theorem fallback_review (filePath body : String) (fallbackOk : Bool) :
    (createReviewComment filePath body false fallbackOk).fallbackAttempts = 1 ∧
    (createReviewComment filePath body false fallbackOk).fallbackBody =
      some ("Documentation improvement for " ++ filePath ++ ":\n\n" ++ body) ∧
    (createReviewComment filePath body false fallbackOk).result = true := by
  cases fallbackOk <;> simp [createReviewComment]

/-! ## Claim C10: comma-less hunk headers are ignored -/

/-- Claim C10.  The regex in `calculatePositionInFile` rejects the
comma-less header form `@@ -3 +3 @@`; a `"@@ "` line that fails the regex
neither resets the hunk start nor advances the counter, so the positions
of subsequent lines continue from the last matched header's baseline
(second conjunct) or, when no header ever matched, from the default hunk
start 0 with the final clamp to a minimum of 1 (third conjunct). -/
theorem headerNoComma_ignored :
    searchHunk "@@ -3 +3 @@".data = none ∧
    (∀ (pre mid1 mid2 rest : List String) (hdr bad tgt : String) (c : Nat),
      startsWithStr hdr "@@ " = true →
      searchHunk hdr.data = some c →
      startsWithStr bad "@@ " = true →
      searchHunk bad.data = none →
      (∀ L ∈ mid1, startsWithStr L "@@ " = false) →
      (∀ L ∈ mid2, startsWithStr L "@@ " = false) →
      calculatePositionInFile
          (pre ++ hdr :: (mid1 ++ bad :: (mid2 ++ tgt :: rest)))
          (pre.length + 1 + mid1.length + 1 + mid2.length)
        = Nat.max (c + countNR mid1 + countNR mid2) 1) ∧
    (∀ (pre mid rest : List String) (bad tgt : String),
      startsWithStr bad "@@ " = true →
      searchHunk bad.data = none →
      (∀ L ∈ pre, startsWithStr L "@@ " = false) →
      (∀ L ∈ mid, startsWithStr L "@@ " = false) →
      calculatePositionInFile (pre ++ bad :: (mid ++ tgt :: rest))
          (pre.length + 1 + mid.length)
        = Nat.max (countNR pre + countNR mid) 1) := by
  refine ⟨by decide, ?_, ?_⟩
  · intro pre mid1 mid2 rest hdr bad tgt c hhdr hc hbad hbadn hmid1 hmid2
    have hsplit : pre ++ hdr :: (mid1 ++ bad :: (mid2 ++ tgt :: rest))
        = (pre ++ hdr :: (mid1 ++ bad :: mid2)) ++ (tgt :: rest) := by
      simp
    have hidx : pre.length + 1 + mid1.length + 1 + mid2.length
        = (pre ++ hdr :: (mid1 ++ bad :: mid2)).length := by
      simp [List.length_append, List.length_cons]
      omega
    rw [hsplit, hidx]
    unfold calculatePositionInFile
    rw [posLoop_append_length, List.foldl_append, List.foldl_cons,
      stepLine_header _ hdr c hhdr hc, List.foldl_append, List.foldl_cons,
      foldl_headerFree mid1 c 0 hmid1, stepLine_badHeader _ bad hbad hbadn,
      foldl_headerFree mid2 c (0 + countNR mid1) hmid2]
    simp [Nat.add_assoc]
  · intro pre mid rest bad tgt hbad hbadn hpre hmid
    have hsplit : pre ++ bad :: (mid ++ tgt :: rest)
        = (pre ++ bad :: mid) ++ (tgt :: rest) := by
      simp
    have hidx : pre.length + 1 + mid.length = (pre ++ bad :: mid).length := by
      simp [List.length_append, List.length_cons]
      omega
    rw [hsplit, hidx]
    unfold calculatePositionInFile
    rw [posLoop_append_length, List.foldl_append, List.foldl_cons,
      foldl_headerFree pre 0 0 hpre, stepLine_badHeader _ bad hbad hbadn,
      foldl_headerFree mid 0 (0 + countNR pre) hmid]
    simp

/-- Witness for `headerNoComma_ignored`: after a matched header
`@@ -1,2 +5,3 @@` a comma-less `@@ -9 +9 @@` does not reset the count
(position 7 from baseline 5), and with only a comma-less header the
default baseline 0 plus one counted line clamps to 1. -/
theorem headerNoComma_ignored_witness :
    calculatePositionInFile ["@@ -1,2 +5,3 @@", "+a", "@@ -9 +9 @@", "+b", "+c"] 4
      = Nat.max (5 + 1 + 1) 1 ∧
    calculatePositionInFile ["@@ -3 +3 @@", "+a", "+b"] 2
      = Nat.max (0 + 1) 1 :=
  ⟨headerNoComma_ignored.2.1 [] ["+a"] ["+b"] [] "@@ -1,2 +5,3 @@" "@@ -9 +9 @@" "+c" 5
      (by decide) (by decide) (by decide) (by decide) (by decide) (by decide),
   by
    have h := headerNoComma_ignored.2.2 [] ["+a"] [] "@@ -3 +3 @@" "+b"
      (by decide) (by decide) (by decide) (by decide)
    simpa using h⟩
